import Mathlib

/-!
Verification development for the Natey17/Calculator repository
(files src/calc.py and src/calc_gui.py).

Both files implement a sandboxed arithmetic evaluator by parsing the input
with the CPython expression grammar (ast.parse in eval mode) and walking the
resulting tree with a whitelist visitor (class SafeEval).  This file gives a
shallow embedding of that pipeline:

* Python numeric values are modelled by `Value`: int, bool (a subclass of int
  in Python, admitted by the isinstance check in visit_Constant), float,
  complex, and None (the value returned by ast.NodeVisitor.generic_visit).
  Python floats are modelled as exact rational numbers; binary rounding and
  overflow of IEEE doubles are outside the model.  Every concrete example in
  the theorems below evaluates to the same number in the model and in CPython.
* The CPython expression grammar for the fragment reachable from the
  calculator (number and boolean literals, identifiers, unary + -, binary
  + - * / // % **, parentheses, calls with positional and keyword arguments,
  and set displays) is embedded as `tokenize` and `pparse`.  Irrational
  results of math functions and fractional powers cannot be represented
  exactly; for those the model keeps the result KIND faithful (Real versus
  complex versus error) and stores a documented approximation as payload.
  No theorem below depends on such a payload.
* Rational arithmetic is implemented through `Rat.divInt` on numerators and
  denominators (definitionally reducible), with bridge lemmas relating each
  operation to the Mathlib field structure on `ℚ`.
-/


/-- Error kinds raised by the two evaluators and by the CPython runtime
underneath them.  `nameNotAllowed` is the UnknownName kind, `unknownFunc`
the UnknownFunction kind, `badArity` the message "bad function arity" of
calc.py, `noKeywordArgs` the message "no keyword args" of calc_gui.py,
`blockedNode` the message "syntax not allowed" of generic_visit,
`typeError` a CPython TypeError, `zeroDivision` a CPython
ZeroDivisionError, `domainError` a CPython ValueError from a math-domain
violation, `overflowError` a CPython OverflowError (raised by float() on
an int too large for a double), and `synErr` a CPython SyntaxError from
ast.parse.
`outOfFuel` is a model artifact of the fuel-based recursion; with the fuel
chosen by `safe_eval` it is unreachable for the inputs appearing below. -/
inductive EvalError where
  | onlyNumbers
  | opNotAllowed
  | unaryNotAllowed
  | nameNotAllowed (id : String)
  | calleeNotName
  | unknownFunc (id : String)
  | badArity
  | noKeywordArgs
  | blockedNode
  | typeError
  | zeroDivision
  | domainError
  | overflowError
  | synErr
  | outOfFuel
deriving DecidableEq, Repr

/-- Python runtime values reachable in the calculator.  `real` is a Python
float modelled as an exact rational; `complex` a Python complex with real
and imaginary part; `none` the Python None returned by generic_visit. -/
inductive Value where
  | int (n : ℤ)
  | bool (b : Bool)
  | real (q : ℚ)
  | complex (re im : ℚ)
  | none
deriving DecidableEq, Repr

/-- Decidable equality of evaluation results (core provides none for
Except). -/
instance instDecEqExcept {e a : Type} [DecidableEq e] [DecidableEq a] :
    DecidableEq (Except e a)
  | .ok x, .ok y =>
    if h : x = y then .isTrue (by rw [h]) else .isFalse (fun hc => h (Except.ok.inj hc))
  | .ok _, .error _ => .isFalse (fun hc => Except.noConfusion hc)
  | .error _, .ok _ => .isFalse (fun hc => Except.noConfusion hc)
  | .error x, .error y =>
    if h : x = y then .isTrue (by rw [h]) else .isFalse (fun hc => h (Except.error.inj hc))

/-- Constant payloads of ast.Constant nodes in the reachable fragment. -/
inductive PyConst where
  | int (n : ℤ)
  | float (q : ℚ)
  | bool (b : Bool)
  | none
deriving DecidableEq, Repr

/-- The ast unary operator classes accepted by the grammar fragment. -/
inductive UnaryKind where
  | uadd
  | usub
deriving DecidableEq, Repr

/-- The ast binary operator classes accepted by the grammar fragment. -/
inductive BinKind where
  | add
  | sub
  | mult
  | div
  | floorDiv
  | mod
  | pow
deriving DecidableEq, Repr

/-- Python ast expression nodes reachable by parsing calculator input:
Constant, Name, UnaryOp, BinOp, Call (with positional and keyword
arguments) and Set (the set display `\x7b…\x7d`, which is parseable but has
no dedicated visitor in SafeEval). -/
inductive PyExpr where
  | const (c : PyConst)
  | name (id : String)
  | unaryOp (op : UnaryKind) (operand : PyExpr)
  | binOp (left : PyExpr) (op : BinKind) (right : PyExpr)
  | call (func : PyExpr) (args : List PyExpr) (kws : List (String × PyExpr))
  | setDisplay (elts : List PyExpr)

/-! ### Reducible rational arithmetic

Core `Rat.add`, `Rat.sub`, `Rat.mul` and `Rat.inv` are irreducible in this
toolchain, so the model computes through `Rat.divInt` on numerators and
denominators instead; `qadd_eq` and friends relate each operation to the
field structure of `ℚ`. -/


/-- Rational addition through numerators and denominators. -/
def qadd (a b : ℚ) : ℚ := Rat.divInt (a.num * b.den + b.num * a.den) ((a.den : ℤ) * b.den)

/-- Rational subtraction through numerators and denominators. -/
def qsub (a b : ℚ) : ℚ := Rat.divInt (a.num * b.den - b.num * a.den) ((a.den : ℤ) * b.den)

/-- Rational multiplication through numerators and denominators. -/
def qmul (a b : ℚ) : ℚ := Rat.divInt (a.num * b.num) ((a.den : ℤ) * b.den)

/-- Rational division through numerators and denominators (total; callers
guard against zero divisors exactly where CPython raises). -/
def qdiv (a b : ℚ) : ℚ := Rat.divInt (a.num * b.den) ((a.den : ℤ) * b.num)

/-- Rational negation through numerators and denominators. -/
def qneg (a : ℚ) : ℚ := Rat.divInt (-a.num) (a.den : ℤ)

/-- Boolean strict order test on rationals via cross multiplication. -/
def qlt (a b : ℚ) : Bool := decide (a.num * b.den < b.num * a.den)

/-- Boolean order test on rationals via cross multiplication. -/
def qle (a b : ℚ) : Bool := decide (a.num * b.den ≤ b.num * a.den)

/-- Natural-number power of a rational, by repeated `qmul`. -/
def qpowN (a : ℚ) : ℕ → ℚ
  | 0 => 1
  | n + 1 => qmul (qpowN a n) a

/-- Integer power of a rational through numerators and denominators; for a
negative exponent the fraction is flipped, as CPython float power does. -/
def qzpow (a : ℚ) (k : ℤ) : ℚ :=
  if 0 ≤ k then qpowN a k.toNat
  else Rat.divInt ((qpowN a (-k).toNat).den : ℤ) (qpowN a (-k).toNat).num

/-- Conversion from `z : ℤ` to `ℚ` through `Rat.divInt` (reducible). -/
def qofInt (z : ℤ) : ℚ := Rat.divInt z 1

/-! ### Python numeric semantics

Python bool is a subclass of int: `True` acts as 1 and `False` as 0 in
arithmetic, and `isinstance(True, int)` holds.  The conversions below
classify a `Value` the way CPython binary operators do: exact integer kind
(int or bool), real kind (int, bool or float), complex kind (any number). -/


/-- Integer kind of a value (Python int or bool), with its integer value. -/
def toI : Value → Option ℤ
  | .int n => some n
  | .bool b => some (if b then 1 else 0)
  | _ => Option.none

/-- Real kind of a value (Python int, bool or float), as a rational. -/
def toR : Value → Option ℚ
  | .int n => some (qofInt n)
  | .bool b => some (if b then 1 else 0)
  | .real q => some q
  | _ => Option.none

/-- Complex kind of a value (any Python number), as a pair (re, im). -/
def toC : Value → Option (ℚ × ℚ)
  | .complex r i => some (r, i)
  | v => (toR v).map (fun q => (q, 0))

/-- Complex addition. -/
def cadd (x y : ℚ × ℚ) : ℚ × ℚ := (qadd x.1 y.1, qadd x.2 y.2)

/-- Complex subtraction. -/
def csub (x y : ℚ × ℚ) : ℚ × ℚ := (qsub x.1 y.1, qsub x.2 y.2)

/-- Complex multiplication. -/
def cmul (x y : ℚ × ℚ) : ℚ × ℚ :=
  (qsub (qmul x.1 y.1) (qmul x.2 y.2), qadd (qmul x.1 y.2) (qmul x.2 y.1))

/-- Complex division by a nonzero divisor. -/
def cdiv (x y : ℚ × ℚ) : ℚ × ℚ :=
  let d := qadd (qmul y.1 y.1) (qmul y.2 y.2)
  (qdiv (qadd (qmul x.1 y.1) (qmul x.2 y.2)) d, qdiv (qsub (qmul x.2 y.1) (qmul x.1 y.2)) d)

/-- Complex natural power by repeated multiplication. -/
def cpowN (x : ℚ × ℚ) : ℕ → ℚ × ℚ
  | 0 => (1, 0)
  | n + 1 => cmul (cpowN x n) x

/-- Python `+` on numbers: int kind stays int, real kind gives float,
complex kind gives complex; None is a TypeError. -/
def pyAdd (a b : Value) : Except EvalError Value :=
  match toI a, toI b with
  | some m, some k => .ok (.int (m + k))
  | _, _ =>
    match toR a, toR b with
    | some x, some y => .ok (.real (qadd x y))
    | _, _ =>
      match toC a, toC b with
      | some x, some y => .ok (.complex (cadd x y).1 (cadd x y).2)
      | _, _ => .error .typeError

/-- Python `-` on numbers (same kind promotion as `+`). -/
def pySub (a b : Value) : Except EvalError Value :=
  match toI a, toI b with
  | some m, some k => .ok (.int (m - k))
  | _, _ =>
    match toR a, toR b with
    | some x, some y => .ok (.real (qsub x y))
    | _, _ =>
      match toC a, toC b with
      | some x, some y => .ok (.complex (csub x y).1 (csub x y).2)
      | _, _ => .error .typeError

/-- Python `*` on numbers (same kind promotion as `+`). -/
def pyMul (a b : Value) : Except EvalError Value :=
  match toI a, toI b with
  | some m, some k => .ok (.int (m * k))
  | _, _ =>
    match toR a, toR b with
    | some x, some y => .ok (.real (qmul x y))
    | _, _ =>
      match toC a, toC b with
      | some x, some y => .ok (.complex (cmul x y).1 (cmul x y).2)
      | _, _ => .error .typeError

/-- Python `/`: true division.  Always produces a float (Real) on real-kind
operands, even for two exact integers; zero divisor raises
ZeroDivisionError; complex operands give complex. -/
def pyDiv (a b : Value) : Except EvalError Value :=
  match toR a, toR b with
  | some x, some y =>
    if y.num == 0 then .error .zeroDivision else .ok (.real (qdiv x y))
  | _, _ =>
    match toC a, toC b with
    | some x, some y =>
      if (qadd (qmul y.1 y.1) (qmul y.2 y.2)).num == 0 then .error .zeroDivision
      else .ok (.complex (cdiv x y).1 (cdiv x y).2)
    | _, _ => .error .typeError

/-- Python `//`: division with floor toward negative infinity.  Int kind
stays int (Int.fdiv); floats floor the true quotient; complex operands are
a TypeError in CPython. -/
def pyFloorDiv (a b : Value) : Except EvalError Value :=
  match toI a, toI b with
  | some m, some k =>
    if k == 0 then .error .zeroDivision else .ok (.int (Int.fdiv m k))
  | _, _ =>
    match toR a, toR b with
    | some x, some y =>
      if y.num == 0 then .error .zeroDivision
      else .ok (.real (qofInt (Rat.floor (qdiv x y))))
    | _, _ => .error .typeError

/-- Python `%`: floored-division remainder, so the sign of the result
matches the sign of the divisor (Int.fmod; for floats x - y*floor(x/y)).
Complex operands are a TypeError in CPython. -/
def pyMod (a b : Value) : Except EvalError Value :=
  match toI a, toI b with
  | some m, some k =>
    if k == 0 then .error .zeroDivision else .ok (.int (Int.fmod m k))
  | _, _ =>
    match toR a, toR b with
    | some x, some y =>
      if y.num == 0 then .error .zeroDivision
      else .ok (.real (qsub x (qmul y (qofInt (Rat.floor (qdiv x y))))))
    | _, _ => .error .typeError

/-- Documented approximation: one rounded Newton step for square roots.
The quotient is rounded to 6 decimal places to keep denominators small. -/
def newtonStep (x y : ℚ) : ℚ :=
  let z := qmul (qadd y (qdiv x y)) (Rat.divInt 1 2)
  Rat.divInt (Rat.floor (qadd (qmul z (Rat.divInt 1000000 1)) (Rat.divInt 1 2))) 1000000

/-- Iterated Newton steps. -/
def newtonIter : ℕ → ℚ → ℚ → ℚ
  | 0, _, y => y
  | f + 1, x, y => newtonIter f x (newtonStep x y)

/-- Documented approximation of the square root of a rational.  CPython
computes an IEEE double here; the model only guarantees the KIND of results
built from this payload, and no theorem below depends on its value. -/
def qsqrtApx (x : ℚ) : ℚ := if qle x 0 then 0 else newtonIter 40 x 1

/-- Documented approximation for a fractional power `x ^ e` with positive
base: exact integer powers composed with the square-root approximation for
half-integer exponents, and the floor of the exponent otherwise.  CPython
computes an IEEE double; only the KIND of the result is claimed. -/
def fracPow (x e : ℚ) : ℚ :=
  if e.den == 2 then qsqrtApx (qzpow x e.num) else qzpow x (Int.fdiv e.num (e.den : ℤ))

/-- Python `**`.  Int base and nonnegative int exponent stay int; negative
int exponent gives a float; an integral float exponent gives a float; a
fractional exponent gives a float for nonnegative base and a COMPLEX number
(not an error) for negative base, as CPython float.__pow__ does since
Python 3.0.  Zero base with negative exponent raises ZeroDivisionError.
The complex payload is the principal value idealized as purely imaginary
(exact only for half-integer exponents); no theorem depends on it. -/
def pyPow (a b : Value) : Except EvalError Value :=
  match toI a, toI b with
  | some m, some k =>
    if 0 ≤ k then .ok (.int (m ^ k.toNat))
    else if m == 0 then .error .zeroDivision
    else .ok (.real (qzpow (qofInt m) k))
  | _, _ =>
    match toR a, toR b with
    | some x, some e =>
      if e.den == 1 then
        if x.num == 0 && decide (e.num < 0) then .error .zeroDivision
        else .ok (.real (qzpow x e.num))
      else
        if x.num == 0 then
          if qlt e 0 then .error .zeroDivision else .ok (.real 0)
        else if qlt x 0 then .ok (.complex 0 (fracPow (qneg x) e))
        else .ok (.real (fracPow x e))
    | _, _ =>
      match toC a, toC b with
      | some x, some _ =>
        match toI b with
        | some k =>
          if 0 ≤ k then .ok (.complex (cpowN x k.toNat).1 (cpowN x k.toNat).2)
          else if (qadd (qmul x.1 x.1) (qmul x.2 x.2)).num == 0 then .error .zeroDivision
          else .ok (.complex (cdiv (1, 0) (cpowN x (-k).toNat)).1 (cdiv (1, 0) (cpowN x (-k).toNat)).2)
        | Option.none => .ok (.complex 0 0)
      | _, _ => .error .typeError

/-- Python unary `+`: identity on numbers, except that bools are promoted
to int (`+True` is 1); TypeError on None. -/
def pyPos : Value → Except EvalError Value
  | .int n => .ok (.int n)
  | .bool b => .ok (.int (if b then 1 else 0))
  | .real q => .ok (.real q)
  | .complex r i => .ok (.complex r i)
  | .none => .error .typeError

/-- Python unary `-`: negation, with bools promoted to int. -/
def pyNeg : Value → Except EvalError Value
  | .int n => .ok (.int (-n))
  | .bool b => .ok (.int (if b then -1 else 0))
  | .real q => .ok (.real (qneg q))
  | .complex r i => .ok (.complex (qneg r) (qneg i))
  | .none => .error .typeError

/-- Dispatch of visit_BinOp over the allowed ast operator classes. -/
def binApply (op : BinKind) (a b : Value) : Except EvalError Value :=
  match op with
  | .add => pyAdd a b
  | .sub => pySub a b
  | .mult => pyMul a b
  | .div => pyDiv a b
  | .floorDiv => pyFloorDiv a b
  | .mod => pyMod a b
  | .pow => pyPow a b

/-- ALLOWED_NAMES of both files: the constants pi and e, bound to the exact
rational values of the IEEE doubles math.pi and math.e. -/
def ALLOWED_NAMES : List (String × Value) :=
  [("pi", .real (Rat.divInt 884279719003555 281474976710656)),
   ("e", .real (Rat.divInt 6121026514868073 2251799813685248))]

/-- The keys of ALLOWED_FUNCS in both files. -/
def funcNames : List String := ["sqrt", "sin", "cos", "tan", "log", "ln"]

/-- The registered math functions applied to one real argument, with the
CPython math-module domain checks: sqrt of a negative, or log/ln of a
nonpositive number, raise ValueError (math domain error).  Payloads of the
irrational results are documented approximations (0 for the trig functions
and the logarithms); no theorem below depends on them. -/
def mathCall (f : String) (x : ℚ) : Except EvalError Value :=
  if f == "sqrt" then
    if qlt x 0 then .error .domainError else .ok (.real (qsqrtApx x))
  else if f == "sin" || f == "cos" || f == "tan" then .ok (.real 0)
  else if f == "log" || f == "ln" then
    if qle x 0 then .error .domainError else .ok (.real 0)
  else .error .typeError

/-- Calling a registered math function with an evaluated argument list.
Every function in ALLOWED_FUNCS is a C function of exactly one positional
argument, so CPython raises TypeError when it is applied to zero or to two
or more arguments (this raise happens inside the function call, after the
evaluators own checks).  A complex or None argument is also a TypeError
(math functions convert via float()). -/
def applyFunc (f : String) (vs : List Value) : Except EvalError Value :=
  match vs with
  | [v] =>
    match toR v with
    | some x => mathCall f x
    | Option.none => .error .typeError
  | _ => .error .typeError

/-- Association-list lookup used to model Python dict lookup for the merged
name table (the merge `\x7b**ALLOWED_NAMES, **names\x7d` lets caller
bindings shadow the constants, modelled by trying the caller list first). -/
def assocFind : List (String × Value) → String → Option Value
  | [], _ => Option.none
  | (k, v) :: rest, id => if k == id then some v else assocFind rest id

/-! ### The CPython expression grammar (fragment)

`safe_eval` in both files calls `ast.parse(expr, mode="eval")`.  The
tokenizer and parser below embed the CPython grammar for the fragment
reachable from calculator input: decimal int and float literals, names and
the keyword constants True/False/None, `+ - * / // % **` with the CPython
precedence table (unary sign binds tighter than `* / // %` but looser than
a following `**`; `**` is right associative and its right operand is parsed
at the unary level, so `-2**2` is `-(2**2)` and `2**-2` is allowed),
parenthesized expressions, call trailers with positional and keyword
arguments, and nonempty set displays.  A `%` token is always the binary
modulo operator: CPython has no postfix percent. -/


/-- Tokens of the grammar fragment. -/
inductive Tok where
  | num (c : PyConst)
  | ident (s : String)
  | plus
  | minus
  | star
  | slash
  | dslash
  | percent
  | dstar
  | lparen
  | rparen
  | comma
  | eqTok
  | lbrace
  | rbrace
deriving DecidableEq, Repr

/-- Splits a leading run of decimal digits from a character list. -/
def digitsSpan : List Char → List Char × List Char
  | [] => ([], [])
  | c :: cs =>
    if c.isDigit then
      let p := digitsSpan cs
      (c :: p.1, p.2)
    else ([], c :: cs)

/-- Splits a leading run of identifier characters from a character list. -/
def identSpan : List Char → List Char × List Char
  | [] => ([], [])
  | c :: cs =>
    if c.isAlphanum || c == '_' then
      let p := identSpan cs
      (c :: p.1, p.2)
    else ([], c :: cs)

/-- Natural number denoted by a list of decimal digit characters. -/
def natOfDigits (ds : List Char) : ℕ := ds.foldl (fun a c => 10 * a + (c.toNat - 48)) 0

/-- Fuel-based tokenizer; the fuel chosen by `tokenize` always suffices
because every step consumes at least one character. -/
def tokenizeAux : ℕ → List Char → Except EvalError (List Tok)
  | 0, _ => .error .outOfFuel
  | _ + 1, [] => .ok []
  | f + 1, c :: cs =>
    if c == ' ' || c == '\t' then tokenizeAux f cs
    else if c.isDigit then
      let p := digitsSpan (c :: cs)
      match p.2 with
      | '.' :: r2 =>
        let q := digitsSpan r2
        do
          let ts ← tokenizeAux f q.2
          .ok (.num (.float (Rat.divInt
            ((natOfDigits p.1 : ℤ) * 10 ^ q.1.length + (natOfDigits q.1 : ℤ))
            (10 ^ q.1.length : ℤ))) :: ts)
      | _ => do
          let ts ← tokenizeAux f p.2
          .ok (.num (.int (natOfDigits p.1)) :: ts)
    else if c.isAlpha || c == '_' then
      let p := identSpan (c :: cs)
      do
        let ts ← tokenizeAux f p.2
        .ok (.ident (String.mk p.1) :: ts)
    else
      match c, cs with
      | '*', '*' :: r => do
          let ts ← tokenizeAux f r
          .ok (.dstar :: ts)
      | '/', '/' :: r => do
          let ts ← tokenizeAux f r
          .ok (.dslash :: ts)
      | '*', _ => do
          let ts ← tokenizeAux f cs
          .ok (.star :: ts)
      | '/', _ => do
          let ts ← tokenizeAux f cs
          .ok (.slash :: ts)
      | '+', _ => do
          let ts ← tokenizeAux f cs
          .ok (.plus :: ts)
      | '-', _ => do
          let ts ← tokenizeAux f cs
          .ok (.minus :: ts)
      | '%', _ => do
          let ts ← tokenizeAux f cs
          .ok (.percent :: ts)
      | '(', _ => do
          let ts ← tokenizeAux f cs
          .ok (.lparen :: ts)
      | ')', _ => do
          let ts ← tokenizeAux f cs
          .ok (.rparen :: ts)
      | ',', _ => do
          let ts ← tokenizeAux f cs
          .ok (.comma :: ts)
      | '=', _ => do
          let ts ← tokenizeAux f cs
          .ok (.eqTok :: ts)
      | '\x7b', _ => do
          let ts ← tokenizeAux f cs
          .ok (.lbrace :: ts)
      | '\x7d', _ => do
          let ts ← tokenizeAux f cs
          .ok (.rbrace :: ts)
      | '.', d :: r =>
        if d.isDigit then
          let q := digitsSpan (d :: r)
          do
            let ts ← tokenizeAux f q.2
            .ok (.num (.float (Rat.divInt (natOfDigits q.1) (10 ^ q.1.length : ℤ))) :: ts)
        else .error .synErr
      | _, _ => .error .synErr

/-- Tokenizes a source string (CPython raises SyntaxError for characters
outside the fragment; the model returns `synErr`). -/
def tokenize (s : String) : Except EvalError (List Tok) := tokenizeAux (s.length + 1) s.data

/-- Precedence and operator of the binary tokens handled by the
precedence-climbing loop (`**` is handled at the power level instead). -/
def binPrec : Tok → Option (ℕ × BinKind)
  | .plus => some (1, .add)
  | .minus => some (1, .sub)
  | .star => some (2, .mult)
  | .slash => some (2, .div)
  | .dslash => some (2, .floorDiv)
  | .percent => some (2, .mod)
  | _ => Option.none

/-- Parser modes: one fuel-based function covers the mutually recursive
grammar productions so that the recursion stays structural (and therefore
kernel-reducible).  Accumulator-carrying modes implement the loops. -/
inductive PMode where
  | expw (min : ℕ)
  | loopw (min : ℕ) (left : PyExpr)
  | unary
  | pw
  | trail
  | trailLoop (base : PyExpr)
  | atom
  | argsLoop (callee : PyExpr) (args : List PyExpr) (kws : List (String × PyExpr))
  | setLoop (elts : List PyExpr)

/-- The recursive-descent parser for the grammar fragment.  Returns the
parsed expression and the unconsumed tokens. -/
def pparse : ℕ → PMode → List Tok → Except EvalError (PyExpr × List Tok)
  | 0, _, _ => .error .outOfFuel
  | f + 1, m, ts =>
    match m with
    | .expw min => do
        let p ← pparse f .unary ts
        pparse f (.loopw min p.1) p.2
    | .loopw min left =>
      match ts with
      | t :: rest =>
        match binPrec t with
        | some (p, op) =>
          if min ≤ p then do
            let r ← pparse f (.expw (p + 1)) rest
            pparse f (.loopw min (.binOp left op r.1)) r.2
          else .ok (left, ts)
        | Option.none => .ok (left, ts)
      | [] => .ok (left, ts)
    | .unary =>
      match ts with
      | .plus :: rest => do
          let p ← pparse f .unary rest
          .ok (.unaryOp .uadd p.1, p.2)
      | .minus :: rest => do
          let p ← pparse f .unary rest
          .ok (.unaryOp .usub p.1, p.2)
      | _ => pparse f .pw ts
    | .pw => do
        let p ← pparse f .trail ts
        match p.2 with
        | .dstar :: r2 => do
            let q ← pparse f .unary r2
            .ok (.binOp p.1 .pow q.1, q.2)
        | _ => .ok (p.1, p.2)
    | .trail => do
        let p ← pparse f .atom ts
        pparse f (.trailLoop p.1) p.2
    | .trailLoop b =>
      match ts with
      | .lparen :: rest => do
          let p ← pparse f (.argsLoop b [] []) rest
          pparse f (.trailLoop p.1) p.2
      | _ => .ok (b, ts)
    | .atom =>
      match ts with
      | .num c :: rest => .ok (.const c, rest)
      | .ident s :: rest =>
        if s == "True" then .ok (.const (.bool true), rest)
        else if s == "False" then .ok (.const (.bool false), rest)
        else if s == "None" then .ok (.const .none, rest)
        else .ok (.name s, rest)
      | .lparen :: rest => do
          let p ← pparse f (.expw 0) rest
          match p.2 with
          | .rparen :: r2 => .ok (p.1, r2)
          | _ => .error .synErr
      | .lbrace :: rest => do
          let p ← pparse f (.expw 0) rest
          pparse f (.setLoop [p.1]) p.2
      | _ => .error .synErr
    | .setLoop acc =>
      match ts with
      | .rbrace :: rest => .ok (.setDisplay acc.reverse, rest)
      | .comma :: rest => do
          let p ← pparse f (.expw 0) rest
          pparse f (.setLoop (p.1 :: acc)) p.2
      | _ => .error .synErr
    | .argsLoop callee args kws =>
      match ts with
      | .rparen :: rest => .ok (.call callee args.reverse kws.reverse, rest)
      | .ident s :: .eqTok :: rest => do
          let p ← pparse f (.expw 0) rest
          match p.2 with
          | .comma :: r2 => pparse f (.argsLoop callee args ((s, p.1) :: kws)) r2
          | .rparen :: r2 => .ok (.call callee args.reverse ((s, p.1) :: kws).reverse, r2)
          | _ => .error .synErr
      | _ =>
        if kws.isEmpty then do
          let p ← pparse f (.expw 0) ts
          match p.2 with
          | .comma :: r2 => pparse f (.argsLoop callee (p.1 :: args) kws) r2
          | .rparen :: r2 => .ok (.call callee (p.1 :: args).reverse kws.reverse, r2)
          | _ => .error .synErr
        else .error .synErr

/-- Fuel that always suffices for `pparse` (the call depth is bounded by a
small multiple of the token count). -/
def fuelFor (ts : List Tok) : ℕ := 16 * ts.length + 64

/-- Model of `ast.parse(expr, mode="eval")` on the grammar fragment: the
body of the Expression node, or SyntaxError.  Tokens left over after a
complete expression are a SyntaxError, as in CPython. -/
def astParse (s : String) : Except EvalError PyExpr :=
  match tokenize s with
  | .error e => .error e
  | .ok ts =>
    match pparse (fuelFor ts) (.expw 0) ts with
    | .ok (e, []) => .ok e
    | .ok _ => .error .synErr
    | .error e => .error e

namespace CalcCli

/-- The SafeEval visitor of src/calc.py collapsed into one match over the
closed node type (visit_Constant, visit_Name, visit_UnaryOp, visit_BinOp,
visit_Call, and generic_visit for the Set node, which is not in the
forbidden tuple and therefore falls through to
ast.NodeVisitor.generic_visit: children are visited and None is returned).
visit_Expression is implicit because `astParse` already returns the body.
The dead visit_Num compatibility method is unreachable on the Python
versions that produce ast.Constant and is not modelled.  The fuel argument
only bounds the recursion depth; `safe_eval` passes enough for any parsed
tree. -/
def visit : ℕ → List (String × Value) → PyExpr → Except EvalError Value
  | 0, _, _ => .error .outOfFuel
  | f + 1, env, a =>
    match a with
    | .const c =>
      match c with
      | .int n => .ok (.int n)
      | .float q => .ok (.real q)
      | .bool b => .ok (.bool b)
      | .none => .error .onlyNumbers
    | .name id =>
      match assocFind env id with
      | some v => .ok v
      | Option.none =>
        match assocFind ALLOWED_NAMES id with
        | some v => .ok v
        | Option.none => .error (.nameNotAllowed id)
    | .unaryOp op x => do
        let v ← visit f env x
        match op with
        | .uadd => pyPos v
        | .usub => pyNeg v
    | .binOp l op r => do
        let lv ← visit f env l
        let rv ← visit f env r
        binApply op lv rv
    | .call fn args kws =>
      match fn with
      | .name fname =>
        if funcNames.contains fname then
          if (0 < args.length ∧ args.length ≤ 2) ∧ kws.isEmpty = true then do
            let vs ← args.foldlM (fun acc x => do
              let v ← visit f env x
              pure (acc ++ [v])) []
            applyFunc fname vs
          else .error .badArity
        else .error (.unknownFunc fname)
      | _ => .error .calleeNotName
    | .setDisplay elts => do
        let _ ← elts.foldlM (fun u x => do
          let _ ← visit f env x
          pure u) ()
        .ok .none

/-- safe_eval of src/calc.py: parse in eval mode, then visit.  The caller
supplied bindings are an association list (insertion-ordered, first match
wins, like the merged dict with caller names overriding constants). -/
def safe_eval (expr : String) (names : List (String × Value)) : Except EvalError Value :=
  match astParse expr with
  | .error e => .error e
  | .ok a => visit (expr.length + 64) names a

end CalcCli

namespace CalcGui

/-- The SafeEval visitor of src/calc_gui.py.  It differs from the calc.py
visitor in visit_Call only: there is NO argument-count guard, just the
keyword check (`if node.keywords: raise ValueError("no keyword args")`);
a call with the wrong number of positional arguments reaches the C math
function, which raises TypeError itself. -/
def visit : ℕ → List (String × Value) → PyExpr → Except EvalError Value
  | 0, _, _ => .error .outOfFuel
  | f + 1, env, a =>
    match a with
    | .const c =>
      match c with
      | .int n => .ok (.int n)
      | .float q => .ok (.real q)
      | .bool b => .ok (.bool b)
      | .none => .error .onlyNumbers
    | .name id =>
      match assocFind env id with
      | some v => .ok v
      | Option.none =>
        match assocFind ALLOWED_NAMES id with
        | some v => .ok v
        | Option.none => .error (.nameNotAllowed id)
    | .unaryOp op x => do
        let v ← visit f env x
        match op with
        | .uadd => pyPos v
        | .usub => pyNeg v
    | .binOp l op r => do
        let lv ← visit f env l
        let rv ← visit f env r
        binApply op lv rv
    | .call fn args kws =>
      match fn with
      | .name fname =>
        if funcNames.contains fname then
          if kws.isEmpty then do
            let vs ← args.foldlM (fun acc x => do
              let v ← visit f env x
              pure (acc ++ [v])) []
            applyFunc fname vs
          else .error .noKeywordArgs
        else .error (.unknownFunc fname)
      | _ => .error .calleeNotName
    | .setDisplay elts => do
        let _ ← elts.foldlM (fun u x => do
          let _ ← visit f env x
          pure u) ()
        .ok .none

/-- The regex rewrite of src/calc_gui.py,
re.sub of (digits with optional fraction)% to (number*0.01): a leftmost
scan; at each digit a maximal digit run with optional maximal fraction is
taken and, when a percent sign follows immediately, the whole match is
replaced.  The regex matches regardless of what FOLLOWS the percent sign,
so `7%` is rewritten even inside `-7%2`. -/
def p2mAux : ℕ → List Char → List Char
  | 0, cs => cs
  | _ + 1, [] => []
  | f + 1, c :: cs =>
    if c.isDigit then
      let p := digitsSpan (c :: cs)
      let fr : List Char × List Char :=
        match p.2 with
        | '.' :: rr =>
          let q := digitsSpan rr
          if q.1.isEmpty then ([], p.2) else ('.' :: q.1, q.2)
        | _ => ([], p.2)
      match fr.2 with
      | '%' :: r3 => '(' :: (p.1 ++ fr.1 ++ ("*0.01)").data ++ p2mAux f r3)
      | _ => (p.1 ++ fr.1) ++ p2mAux f fr.2
    else c :: p2mAux f cs

/-- percent_to_mul of src/calc_gui.py. -/
def percent_to_mul (s : String) : String := String.mk (p2mAux (s.length + 1) s.data)

/-- safe_eval of src/calc_gui.py: percent preprocessing, then parse and
visit. -/
def safe_eval (expr : String) (names : List (String × Value)) : Except EvalError Value :=
  let expr2 := percent_to_mul expr
  match astParse expr2 with
  | .error e => .error e
  | .ok a => visit (expr2.length + 64) names a

end CalcGui

/-! ### The number formatters

calc.py formats with `str(int(x))` when `x == int(x)` and with the C format
`%.12g` otherwise; calc_gui.py tests `float(x).is_integer()` instead, which
classifies the same values on the model domain.  `%.12g` rounds to at most
12 significant decimal digits, strips trailing zeros, and uses scientific
notation when the decimal exponent is below -4 or at least 12.  The model
extracts a 12-digit mantissa with a verified bound (`sig12core_lt`): the
mantissa is always below 10^12, which is exactly the "at most 12
significant digits" guarantee.  The model rounds ties up rather than to
even; no theorem depends on a tie. -/


/-- Fuel-based floor of log base 10 on naturals. -/
def log10fuel : ℕ → ℕ → ℕ
  | 0, _ => 0
  | f + 1, n => if n < 10 then 0 else log10fuel f (n / 10) + 1

/-- Floor of log base 10 of a positive natural. -/
def log10 (n : ℕ) : ℕ := log10fuel n n

/-- Integer powers of ten in `ℚ`, through `Rat.divInt` (reducible). -/
def pow10 (g : ℤ) : ℚ :=
  if 0 ≤ g then Rat.divInt ((10 : ℤ) ^ g.toNat) 1 else Rat.divInt 1 ((10 : ℤ) ^ (-g).toNat)

/-- The decimal exponent of a positive rational: the unique `e` with
`10 ^ e ≤ q < 10 ^ (e + 1)` (see `exp10_spec`). -/
def exp10 (q : ℚ) : ℤ :=
  if qle (pow10 ((log10 q.num.toNat : ℤ) - (log10 q.den : ℤ))) q
  then (log10 q.num.toNat : ℤ) - (log10 q.den : ℤ)
  else (log10 q.num.toNat : ℤ) - (log10 q.den : ℤ) - 1

/-- The rounded 12-digit mantissa of a positive rational: round half up of
q scaled so that the integer part has 12 digits. -/
def sig12mant (q : ℚ) : ℕ :=
  (Rat.floor (qadd (qmul q (pow10 (11 - exp10 q))) (Rat.divInt 1 2))).toNat

/-- Mantissa and exponent used by the %.12g model: the rounded mantissa,
with the carry case (rounding up to 10^12) renormalized to mantissa 10^11
and the next exponent; `sig12core_lt` proves the mantissa stays below
10^12, which is the "at most 12 significant digits" guarantee. -/
def sig12core (q : ℚ) : ℕ × ℤ :=
  if sig12mant q = 10 ^ 12 then (10 ^ 11, exp10 q + 1) else (sig12mant q, exp10 q)

/-- Strips trailing zero digits from a nonzero mantissa (fuel-based). -/
def stripTZ : ℕ → ℕ → ℕ
  | 0, n => n
  | f + 1, n => if n % 10 == 0 && !(n == 0) then stripTZ f (n / 10) else n

/-- The decimal digit character for a digit value below ten. -/
def digCh : ℕ → Char
  | 0 => '0'
  | 1 => '1'
  | 2 => '2'
  | 3 => '3'
  | 4 => '4'
  | 5 => '5'
  | 6 => '6'
  | 7 => '7'
  | 8 => '8'
  | 9 => '9'
  | _ => '0'

/-- Decimal digit characters of a natural number, most significant first
(fuel-based; `natStr` passes enough fuel). -/
def natDigs : ℕ → ℕ → List Char
  | 0, _ => []
  | f + 1, n => if n < 10 then [digCh n] else natDigs f (n / 10) ++ [digCh (n % 10)]

/-- Decimal string of a natural number (model of CPython str on int). -/
def natStr (n : ℕ) : String := String.mk (natDigs (n + 1) n)

/-- Decimal string of an integer (model of CPython str on int). -/
def intStr (k : ℤ) : String :=
  if k < 0 then String.mk ('-' :: (natStr k.natAbs).data) else natStr k.natAbs

/-- Renders a sign, mantissa and decimal exponent the way %.12g does:
trailing zeros stripped, fixed notation for exponents in [-4, 12), and
scientific notation with at least two exponent digits otherwise. -/
def renderG (neg : Bool) (n : ℕ) (e : ℤ) : String :=
  let m := stripTZ 13 n
  let ds := natDigs (m + 1) m
  let k : ℤ := ds.length
  let sign : List Char := if neg then ['-'] else []
  if -4 ≤ e ∧ e < 12 then
    if 0 ≤ e then
      if k ≤ e + 1 then String.mk (sign ++ ds ++ List.replicate (e + 1 - k).toNat '0')
      else String.mk (sign ++ ds.take (e + 1).toNat ++ '.' :: ds.drop (e + 1).toNat)
    else String.mk (sign ++ ('0' :: '.' :: List.replicate (-e - 1).toNat '0') ++ ds)
  else
    let mant : List Char :=
      match ds with
      | [] => ['0']
      | [d] => [d]
      | d :: rest => d :: '.' :: rest
    let esign : List Char := if e < 0 then ['-'] else ['+']
    let edigs : List Char :=
      if e.natAbs < 10 then '0' :: natDigs (e.natAbs + 1) e.natAbs
      else natDigs (e.natAbs + 1) e.natAbs
    String.mk (sign ++ mant ++ 'e' :: (esign ++ edigs))

/-- The %.12g model on a rational: zero prints as 0, otherwise the sign and
the rendered 12-digit mantissa of the absolute value. -/
def fmt12g (q : ℚ) : String :=
  if q.num = 0 then "0"
  else
    renderG (decide (q.num < 0)) (sig12core (if q.num < 0 then qneg q else q)).1
      (sig12core (if q.num < 0 then qneg q else q)).2

/-- Whether a value is mathematically an integer (an int, a bool, or a
float with zero fractional part) — the classification both formatters
apply before choosing the integer branch. -/
def isMathInt : Value → Bool
  | .int _ => true
  | .bool _ => true
  | .real q => q.den == 1
  | _ => false

/-- The integer a mathematically-integral value denotes. -/
def mathIntOf : Value → ℤ
  | .int n => n
  | .bool b => if b then 1 else 0
  | .real q => q.num
  | _ => 0

/-- Real-kind values: int, bool or float (the domain of the spec's
Integer and Real numeric values). -/
def numericRI : Value → Bool
  | .int _ => true
  | .bool _ => true
  | .real _ => true
  | _ => false

/-- Sign flag the formatter model passes to `renderG`. -/
def vNeg : Value → Bool
  | .real q => decide (q.num < 0)
  | _ => false

/-- No decimal point and no exponent marker occurs in the string. -/
def noDotExp (s : String) : Bool :=
  s.data.all (fun c => !(c == '.' || c == 'e' || c == 'E'))

/-- Whether CPython float() raises OverflowError on the integer n.  The
conversion rounds to the nearest double with ties to even and raises when
the rounded value reaches 2^1024.  The largest finite double is
(2^53 - 1) * 2^971 = 2^1024 - 2^971; the midpoint 2^1024 - 2^970 between
it and 2^1024 rounds UP (the mantissa of 2^1024 is even), so float(n)
raises exactly when the absolute value of n is at least
2^1024 - 2^970. -/
def fltOverflows (n : ℤ) : Bool := decide (2 ^ 1024 - 2 ^ 970 ≤ n.natAbs)

namespace CalcCli

/-- format_num of src/calc.py: `str(int(x))` when `x == int(x)` (ints,
bools, and floats with zero fractional part), else the %.12g format.
int() and float() raise TypeError on complex and on None; the first raise
is swallowed by the bare except and the second propagates. -/
def format_num : Value → Except EvalError String
  | .int n => .ok (intStr n)
  | .bool b => .ok (intStr (if b then 1 else 0))
  | .real q => if q.den == 1 then .ok (intStr q.num) else .ok (fmt12g q)
  | .complex _ _ => .error .typeError
  | .none => .error .typeError

end CalcCli

namespace CalcGui

/-- fmt_num of src/calc_gui.py: `str(int(x))` when `float(x).is_integer()`,
else %.12g.  Unlike calc.py, the integer test itself calls float(x), so
for an int beyond double range (`fltOverflows`) the OverflowError raised
inside the try is swallowed but the fallback line raises it again,
uncaught: fmt_num errors instead of returning the integer string.  Floats
reaching the function are already finite doubles, so only the int
constructor has this path (huge rationals under the float tag are an
idealization of the model and keep the float behavior of the source). -/
def fmt_num : Value → Except EvalError String
  | .int n => if fltOverflows n then .error .overflowError else .ok (intStr n)
  | .bool b => .ok (intStr (if b then 1 else 0))
  | .real q => if q.den == 1 then .ok (intStr q.num) else .ok (fmt12g q)
  | .complex _ _ => .error .typeError
  | .none => .error .typeError

end CalcGui

/-- Result-kind test used by the Pow claims: evaluation succeeded with a
complex value. -/
def isComplexOk : Except EvalError Value → Bool
  | .ok (.complex _ _) => true
  | _ => false

/-- Numeric interpretation of a real-kind value (bools count as 0 or 1,
exactly as Python numeric comparison does). -/
def ratOf (v : Value) : ℚ := (toR v).getD 0

/-- Whether a value takes the uncaught-OverflowError path of
calc_gui.py's fmt_num: an int literal value beyond double range.  Bools
are tiny and floats are already doubles, so only the int constructor
qualifies. -/
def guiIntOverflow : Value → Bool
  | .int n => fltOverflows n
  | _ => false

/-- Whether formatting succeeded with some string. -/
def isOkResult : Except EvalError String → Bool
  | .ok _ => true
  | .error _ => false

theorem qadd_eq (a b : ℚ) : qadd a b = a + b := by
  have ha : (a.den : ℚ) ≠ 0 := by exact_mod_cast a.den_nz
  have hb : (b.den : ℚ) ≠ 0 := by exact_mod_cast b.den_nz
  rw [qadd, Rat.divInt_eq_div]
  push_cast
  conv_rhs => rw [← Rat.num_div_den a, ← Rat.num_div_den b]
  field_simp

theorem qsub_eq (a b : ℚ) : qsub a b = a - b := by
  have ha : (a.den : ℚ) ≠ 0 := by exact_mod_cast a.den_nz
  have hb : (b.den : ℚ) ≠ 0 := by exact_mod_cast b.den_nz
  rw [qsub, Rat.divInt_eq_div]
  push_cast
  conv_rhs => rw [← Rat.num_div_den a, ← Rat.num_div_den b]
  field_simp
  ring

theorem qmul_eq (a b : ℚ) : qmul a b = a * b := by
  have ha : (a.den : ℚ) ≠ 0 := by exact_mod_cast a.den_nz
  have hb : (b.den : ℚ) ≠ 0 := by exact_mod_cast b.den_nz
  rw [qmul, Rat.divInt_eq_div]
  push_cast
  conv_rhs => rw [← Rat.num_div_den a, ← Rat.num_div_den b]
  field_simp

theorem qneg_eq (a : ℚ) : qneg a = -a := by
  rw [qneg, Rat.divInt_eq_div]
  push_cast
  conv_rhs => rw [← Rat.num_div_den a]
  rw [neg_div]

theorem qdiv_eq (a b : ℚ) : qdiv a b = a / b := by
  have ha : (a.den : ℚ) ≠ 0 := by exact_mod_cast a.den_nz
  have hb : (b.den : ℚ) ≠ 0 := by exact_mod_cast b.den_nz
  rw [qdiv, Rat.divInt_eq_div]
  push_cast
  rcases eq_or_ne b 0 with h0 | h0
  · subst h0; simp
  · have hbn : (b.num : ℚ) ≠ 0 := by exact_mod_cast Rat.num_ne_zero.mpr h0
    conv_rhs => rw [← Rat.num_div_den a, ← Rat.num_div_den b]
    field_simp

theorem qlt_iff (a b : ℚ) : qlt a b = true ↔ a < b := by
  rw [qlt, decide_eq_true_iff]
  conv_rhs => rw [← Rat.num_div_den a, ← Rat.num_div_den b]
  rw [div_lt_div_iff₀ (by exact_mod_cast a.den_pos) (by exact_mod_cast b.den_pos)]
  exact_mod_cast Iff.rfl

theorem qle_iff (a b : ℚ) : qle a b = true ↔ a ≤ b := by
  rw [qle, decide_eq_true_iff]
  conv_rhs => rw [← Rat.num_div_den a, ← Rat.num_div_den b]
  rw [div_le_div_iff₀ (by exact_mod_cast a.den_pos) (by exact_mod_cast b.den_pos)]
  exact_mod_cast Iff.rfl

theorem qofInt_eq (z : ℤ) : qofInt z = (z : ℚ) := by
  rw [qofInt, Rat.divInt_eq_div]
  simp

theorem log10fuel_spec : ∀ f n, 0 < n → n ≤ f →
    10 ^ log10fuel f n ≤ n ∧ n < 10 ^ (log10fuel f n + 1) := by
  intro f
  induction f with
  | zero => intro n h1 h2; exact absurd (h1.trans_le h2) (lt_irrefl 0)
  | succ f ih =>
    intro n h1 h2
    by_cases h : n < 10
    · rw [log10fuel, if_pos h]
      constructor
      · simpa using h1
      · simpa using h
    · have h10 : 10 ≤ n := le_of_not_lt h
      have hd : 0 < n / 10 := Nat.div_pos h10 (by norm_num)
      have hlt : n / 10 < n := Nat.div_lt_self h1 (by norm_num)
      have hle : n / 10 ≤ f := by omega
      obtain ⟨l, u⟩ := ih (n / 10) hd hle
      rw [log10fuel, if_neg h]
      have e1 : 10 ^ (log10fuel f (n / 10) + 1) = 10 ^ log10fuel f (n / 10) * 10 :=
        pow_succ 10 _
      have e2 : 10 ^ (log10fuel f (n / 10) + 1 + 1) = 10 ^ (log10fuel f (n / 10) + 1) * 10 :=
        pow_succ 10 _
      omega

theorem log10_spec (n : ℕ) (h : 0 < n) :
    10 ^ log10 n ≤ n ∧ n < 10 ^ (log10 n + 1) :=
  log10fuel_spec n n h le_rfl

theorem pow10_eq (g : ℤ) : pow10 g = (10 : ℚ) ^ g := by
  rw [pow10]
  split
  next h =>
    rw [Rat.divInt_eq_div]
    push_cast
    rw [← zpow_natCast (10 : ℚ) g.toNat, Int.toNat_of_nonneg h, div_one]
  next h =>
    rw [Rat.divInt_eq_div]
    have hg : g = -((-g).toNat : ℤ) := by omega
    conv_rhs => rw [hg]
    rw [zpow_neg, zpow_natCast]
    push_cast
    rw [one_div]

theorem pow10_pos (g : ℤ) : 0 < pow10 g := by
  rw [pow10_eq]
  exact zpow_pos (by norm_num) g

theorem exp10_spec (q : ℚ) (hq : 0 < q) :
    pow10 (exp10 q) ≤ q ∧ q < pow10 (exp10 q + 1) := by
  have hnum : 0 < q.num := Rat.num_pos.mpr hq
  have ha : 0 < q.num.toNat := by omega
  have hb : 0 < q.den := q.pos
  obtain ⟨la1, la2⟩ := log10_spec q.num.toNat ha
  obtain ⟨lb1, lb2⟩ := log10_spec q.den hb
  have hden0 : (0 : ℚ) < (q.den : ℚ) := by exact_mod_cast hb
  have hcastN : ((q.num.toNat : ℕ) : ℚ) = (q.num : ℚ) := by
    exact_mod_cast congrArg (fun z : ℤ => (z : ℚ)) (Int.toNat_of_nonneg hnum.le)
  have A1 : (10 : ℚ) ^ ((log10 q.num.toNat : ℕ) : ℤ) ≤ (q.num : ℚ) := by
    rw [zpow_natCast, ← hcastN]
    exact_mod_cast la1
  have A2 : (q.num : ℚ) < (10 : ℚ) ^ (((log10 q.num.toNat : ℕ) : ℤ) + 1) := by
    have h1 : (((log10 q.num.toNat : ℕ) : ℤ) + 1) = ((log10 q.num.toNat + 1 : ℕ) : ℤ) := by
      push_cast
      ring
    rw [h1, zpow_natCast, ← hcastN]
    exact_mod_cast la2
  have B1 : (10 : ℚ) ^ ((log10 q.den : ℕ) : ℤ) ≤ (q.den : ℚ) := by
    rw [zpow_natCast]
    exact_mod_cast lb1
  have B2 : (q.den : ℚ) < (10 : ℚ) ^ (((log10 q.den : ℕ) : ℤ) + 1) := by
    have h1 : (((log10 q.den : ℕ) : ℤ) + 1) = ((log10 q.den + 1 : ℕ) : ℤ) := by
      push_cast
      ring
    rw [h1, zpow_natCast]
    exact_mod_cast lb2
  have hqnd : q = (q.num : ℚ) / (q.den : ℚ) := (Rat.num_div_den q).symm
  have hqd : q * (q.den : ℚ) = (q.num : ℚ) := by
    nth_rewrite 1 [hqnd]
    exact div_mul_cancel₀ _ hden0.ne'
  have upper1 :
      q < (10 : ℚ) ^ ((log10 q.num.toNat : ℤ) - (log10 q.den : ℤ) + 1) := by
    rw [← mul_lt_mul_right hden0, hqd]
    calc (q.num : ℚ) < (10 : ℚ) ^ (((log10 q.num.toNat : ℕ) : ℤ) + 1) := A2
    _ = (10 : ℚ) ^ ((log10 q.num.toNat : ℤ) - (log10 q.den : ℤ) + 1) *
        (10 : ℚ) ^ ((log10 q.den : ℕ) : ℤ) := by
          rw [← zpow_add₀ (by norm_num : (10 : ℚ) ≠ 0)]
          ring_nf
    _ ≤ (10 : ℚ) ^ ((log10 q.num.toNat : ℤ) - (log10 q.den : ℤ) + 1) * (q.den : ℚ) :=
          mul_le_mul_of_nonneg_left B1 (zpow_pos (by norm_num) _).le
  have lower2 :
      (10 : ℚ) ^ ((log10 q.num.toNat : ℤ) - (log10 q.den : ℤ) - 1) ≤ q := by
    rw [← mul_le_mul_right hden0, hqd]
    calc (10 : ℚ) ^ ((log10 q.num.toNat : ℤ) - (log10 q.den : ℤ) - 1) * (q.den : ℚ)
        ≤ (10 : ℚ) ^ ((log10 q.num.toNat : ℤ) - (log10 q.den : ℤ) - 1) *
          (10 : ℚ) ^ (((log10 q.den : ℕ) : ℤ) + 1) :=
          mul_le_mul_of_nonneg_left B2.le (zpow_pos (by norm_num) _).le
    _ = (10 : ℚ) ^ ((log10 q.num.toNat : ℕ) : ℤ) := by
          rw [← zpow_add₀ (by norm_num : (10 : ℚ) ≠ 0)]
          ring_nf
    _ ≤ (q.num : ℚ) := A1
  rw [exp10]
  split
  next h =>
    refine ⟨?_, ?_⟩
    · rw [pow10_eq] at h ⊢
      exact (qle_iff _ _).mp h
    · rw [pow10_eq]
      exact upper1
  next h =>
    refine ⟨?_, ?_⟩
    · rw [pow10_eq]
      exact lower2
    · rw [pow10_eq]
      have := (not_iff_not.mpr (qle_iff (pow10 ((log10 q.num.toNat : ℤ) - (log10 q.den : ℤ))) q)).mp h
      rw [pow10_eq] at this
      have hlt := lt_of_not_le this
      simpa using hlt

theorem rfloor_eq (x : ℚ) : Rat.floor x = ⌊x⌋ := by
  rw [Rat.floor_def', Rat.floor_def]

theorem sig12mant_le (q : ℚ) (hq : 0 < q) : sig12mant q ≤ 10 ^ 12 := by
  obtain ⟨h1, h2⟩ := exp10_spec q hq
  rw [pow10_eq] at h1 h2
  have hmul : q * (10 : ℚ) ^ (11 - exp10 q) < (10 : ℚ) ^ (12 : ℤ) := by
    have hpos : (0 : ℚ) < (10 : ℚ) ^ (11 - exp10 q) := zpow_pos (by norm_num) _
    calc q * (10 : ℚ) ^ (11 - exp10 q)
        < (10 : ℚ) ^ (exp10 q + 1) * (10 : ℚ) ^ (11 - exp10 q) :=
          mul_lt_mul_of_pos_right h2 hpos
    _ = (10 : ℚ) ^ (12 : ℤ) := by
          rw [← zpow_add₀ (by norm_num : (10 : ℚ) ≠ 0)]
          congr 1
          ring
  have hX : qadd (qmul q (pow10 (11 - exp10 q))) (Rat.divInt 1 2)
      = q * (10 : ℚ) ^ (11 - exp10 q) + 1 / 2 := by
    rw [qadd_eq, qmul_eq, pow10_eq, Rat.divInt_eq_div]
    norm_num
  rw [sig12mant, rfloor_eq, hX]
  have h5 : (⌊q * (10 : ℚ) ^ (11 - exp10 q) + 1 / 2⌋ : ℚ) ≤ q * (10 : ℚ) ^ (11 - exp10 q) + 1 / 2 :=
    Int.floor_le _
  have h7 : ((10 : ℚ) ^ (12 : ℤ)) = (((10 : ℕ) ^ 12 : ℕ) : ℚ) := by
    norm_num
  have h8 : (⌊q * (10 : ℚ) ^ (11 - exp10 q) + 1 / 2⌋ : ℚ) < (((10 : ℕ) ^ 12 : ℕ) : ℚ) + 1 := by
    rw [← h7]
    linarith
  have h9 : ⌊q * (10 : ℚ) ^ (11 - exp10 q) + 1 / 2⌋ < ((10 : ℕ) ^ 12 : ℕ) + 1 := by
    exact_mod_cast h8
  rw [Int.toNat_le]
  omega

theorem sig12core_lt (q : ℚ) (hq : 0 < q) : (sig12core q).1 < 10 ^ 12 := by
  have hle := sig12mant_le q hq
  rw [sig12core]
  by_cases h : sig12mant q = 10 ^ 12
  · rw [if_pos h]
    norm_num
  · rw [if_neg h]
    omega

theorem digCh_ok (d : ℕ) : (!(digCh d == '.' || digCh d == 'e' || digCh d == 'E')) = true := by
  rcases d with _|_|_|_|_|_|_|_|_|_|d <;> rfl

theorem natDigs_ok :
    ∀ f n, (natDigs f n).all (fun c => !(c == '.' || c == 'e' || c == 'E')) = true := by
  intro f
  induction f with
  | zero => intro n; rfl
  | succ f ih =>
    intro n
    rw [natDigs]
    by_cases h : n < 10
    · rw [if_pos h]
      simpa using digCh_ok n
    · rw [if_neg h, List.all_append, ih (n / 10)]
      simpa using digCh_ok (n % 10)

theorem noDotExp_natStr (n : ℕ) : noDotExp (natStr n) = true := by
  rw [noDotExp, natStr]
  exact natDigs_ok (n + 1) n

theorem noDotExp_intStr (k : ℤ) : noDotExp (intStr k) = true := by
  rw [intStr]
  by_cases h : k < 0
  · rw [if_pos h, noDotExp]
    have h2 := noDotExp_natStr k.natAbs
    rw [noDotExp] at h2
    simp only [List.all_cons, h2]
    rfl
  · rw [if_neg h]
    exact noDotExp_natStr k.natAbs

/-- Claim C1 (code_bug): the spec demands that the evaluator reject every
node outside the five recognized shapes, and the comment above
generic_visit says "Block anything else", but generic_visit only rejects a
fixed blacklist and otherwise falls through to
ast.NodeVisitor.generic_visit, which returns None.  A set display is not in
the blacklist, so evaluating the input consisting of a left brace, 1, a
comma, 2 and a right brace silently returns the default value None in both
files instead of raising. -/
theorem c1_set_literal_passes_silently :
    CalcCli.safe_eval "\x7b1,2\x7d" [] = .ok Value.none ∧
    CalcGui.safe_eval "\x7b1,2\x7d" [] = .ok Value.none :=
  ⟨rfl, rfl⟩

/-- Claim C2 (counterexample): sqrt(1,2) does NOT fail with the arity error
of the evaluator; the guard of calc.py admits two arguments (0 < len <= 2)
and the failure is the TypeError raised inside math.sqrt. -/
theorem c2_sqrt_two_args_not_arity_error :
    CalcCli.safe_eval "sqrt(1,2)" [] = .error EvalError.typeError ∧
    CalcCli.safe_eval "sqrt(1,2)" [] ≠ .error EvalError.badArity :=
  ⟨rfl, by decide⟩

/-- Claim C2 (amended): the arity guard of calc.py rejects 0 arguments and
3 or more arguments (and any keyword argument) with the arity error, but
admits 1 or 2 positional arguments; a 2-argument call such as sqrt(1,2)
fails with a TypeError from the underlying C math function instead, in
both files (the GUI visitor has no count guard at all, only the keyword
check). -/
theorem c2_arity_guard :
    (∀ (env : List (String × Value)) (args : List PyExpr)
        (kws : List (String × PyExpr)) (f : ℕ),
        args.length = 0 ∨ 2 < args.length →
        CalcCli.visit (f + 1) env (.call (.name "sqrt") args kws) = .error .badArity) ∧
    CalcCli.safe_eval "sqrt()" [] = .error EvalError.badArity ∧
    CalcCli.safe_eval "sqrt(x=1)" [] = .error EvalError.badArity ∧
    CalcGui.safe_eval "sqrt(x=1)" [] = .error EvalError.noKeywordArgs ∧
    CalcGui.safe_eval "sqrt(1,2)" [] = .error EvalError.typeError := by
  refine ⟨?_, rfl, rfl, rfl, rfl⟩
  intro env args kws f h
  simp only [CalcCli.visit]
  rw [if_pos (by rfl : (funcNames.contains "sqrt") = true)]
  rw [if_neg]
  rintro ⟨⟨h1, h2⟩, _⟩
  omega

/-- Witness for the hypothesis of `c2_arity_guard`. -/
theorem c2_arity_guard_witness :
    CalcCli.visit 1 [] (.call (.name "sqrt") [] []) = .error .badArity :=
  c2_arity_guard.1 [] [] [] 0 (Or.inl rfl)

/-- Claim C3 (counterexample): evaluating (-8)**0.5 does not fail with a
domain error; CPython float power returns a COMPLEX value for a negative
base and fractional exponent, and the evaluator passes it through. -/
theorem c3_neg_base_frac_exp_gives_complex :
    isComplexOk (CalcCli.safe_eval "(-8)**0.5" []) = true ∧
    CalcCli.safe_eval "(-8)**0.5" [] ≠ .error EvalError.domainError := by
  constructor
  · rfl
  · intro h
    have h2 : isComplexOk (CalcCli.safe_eval "(-8)**0.5" []) = true := rfl
    rw [h] at h2
    exact Bool.noConfusion h2

/-- Claim C3 (amended): for every negative real base and fractional (non
integral) real exponent, Pow evaluates to a complex value, not a domain
error; concretely both evaluators return a complex number for
(-8)**0.5. -/
theorem c3_amended_pow_complex :
    (∀ x e : ℚ, x < 0 → e.den ≠ 1 →
      ∃ re im, pyPow (Value.real x) (Value.real e) = .ok (.complex re im)) ∧
    isComplexOk (CalcCli.safe_eval "(-8)**0.5" []) = true ∧
    isComplexOk (CalcGui.safe_eval "(-8)**0.5" []) = true := by
  refine ⟨?_, rfl, rfl⟩
  intro x e hx hden
  refine ⟨0, fracPow (qneg x) e, ?_⟩
  have h1 : (e.den == 1) = false := by
    rw [beq_eq_false_iff_ne]
    exact hden
  have hxne : x ≠ 0 := ne_of_lt hx
  have hx0 : (x.num == 0) = false := by
    rw [beq_eq_false_iff_ne]
    exact fun h => hxne (Rat.num_eq_zero.mp h)
  have hlt : qlt x 0 = true := (qlt_iff x 0).mpr hx
  simp [pyPow, toI, toR, h1, hx0, hlt]

/-- Witness for the hypotheses of `c3_amended_pow_complex`. -/
theorem c3_amended_pow_complex_witness :
    ∃ re im, pyPow (Value.real (Rat.divInt (-8) 1)) (Value.real (Rat.divInt 1 2))
      = .ok (.complex re im) :=
  c3_amended_pow_complex.1 (Rat.divInt (-8) 1) (Rat.divInt 1 2) (by norm_num) (by decide)

/-- Claim C4 (counterexample): the percent suffix is NOT available through
the entry point of the line interface; calc.py has no percent
preprocessing and CPython rejects `50%` as a syntax error, so the claimed
result 0.5 is not produced there. -/
theorem c4_percent_missing_in_cli :
    CalcCli.safe_eval "50%" [] = .error EvalError.synErr ∧
    CalcCli.safe_eval "50%" [] ≠ .ok (.real (Rat.divInt 1 2)) :=
  ⟨rfl, by decide⟩

/-- Claim C4 (amended): the percent suffix exists only in the graphical
interface; its safe_eval first rewrites digits% with percent_to_mul, after
which 50% evaluates to 0.5 and 200+50% evaluates to 200.5 (the rewrite
binds to the literal 50 only), while the line interface rejects 50% with a
syntax error. -/
theorem c4_percent_gui_only :
    CalcGui.percent_to_mul "50%" = "(50*0.01)" ∧
    CalcGui.safe_eval "50%" [] = .ok (.real (Rat.divInt 1 2)) ∧
    CalcGui.percent_to_mul "200+50%" = "200+(50*0.01)" ∧
    CalcGui.safe_eval "200+50%" [] = .ok (.real (Rat.divInt 401 2)) ∧
    CalcCli.safe_eval "50%" [] = .error EvalError.synErr :=
  ⟨rfl, rfl, rfl, rfl, rfl⟩

/-- Claim C5 (counterexample): `-7%2` does not return 1 through the
graphical path: percent_to_mul rewrites the regex match `7%` even though
another operand follows, producing `-(7*0.01)2`, which is a syntax
error. -/
theorem c5_gui_percent_breaks_modulo :
    CalcGui.percent_to_mul "-7%2" = "-(7*0.01)2" ∧
    CalcGui.safe_eval "-7%2" [] = .error EvalError.synErr ∧
    CalcGui.safe_eval "-7%2" [] ≠ .ok (.int 1) :=
  ⟨rfl, rfl, by decide⟩

/-- Claim C5 (amended): floor division and modulo follow the floored
convention — for a positive divisor the remainder r of m % k satisfies
0 ≤ r < k with m = k*(m//k) + r, and -7//2 = -4, -7%2 = 1, 7%(-2) = -1
(remainder sign follows the divisor); the line interface evaluates both
examples, and the graphical interface evaluates -7//2 but turns -7%2 into
a syntax error through its percent rewrite. -/
theorem c5_floored_division_convention :
    CalcCli.safe_eval "-7//2" [] = .ok (.int (-4)) ∧
    CalcCli.safe_eval "-7%2" [] = .ok (.int 1) ∧
    CalcGui.safe_eval "-7//2" [] = .ok (.int (-4)) ∧
    pyMod (.int 7) (.int (-2)) = .ok (.int (-1)) ∧
    (∀ m k : ℤ, 0 < k →
      ∃ r, pyMod (.int m) (.int k) = .ok (.int r) ∧ 0 ≤ r ∧ r < k ∧
        m = k * Int.fdiv m k + r) := by
  refine ⟨rfl, rfl, rfl, rfl, ?_⟩
  intro m k hk
  refine ⟨Int.fmod m k, ?_, ?_, ?_, ?_⟩
  · simp only [pyMod, toI]
    rw [if_neg]
    intro hcond
    rw [beq_iff_eq] at hcond
    omega
  · rw [Int.fmod_eq_emod m hk.le]
    exact Int.emod_nonneg m hk.ne'
  · rw [Int.fmod_eq_emod m hk.le]
    exact Int.emod_lt_of_pos m hk
  · have := Int.fmod_add_fdiv m k
    linarith

/-- Witness for the hypothesis of `c5_floored_division_convention`. -/
theorem c5_floored_division_convention_witness :
    ∃ r, pyMod (.int (-7)) (.int 2) = .ok (.int r) ∧ 0 ≤ r ∧ r < 2 ∧
      (-7 : ℤ) = 2 * Int.fdiv (-7) 2 + r :=
  c5_floored_division_convention.2.2.2.2 (-7) 2 (by norm_num)

/-- Claim C6: operator precedence and associativity: 2+3*4 is 14,
(2+3)*4 is 20, -2**2 is -(2**2) = -4 because unary minus binds looser than
a following **, and 2**-2 is 0.25 (the value Rat.divInt 1 4) because a
unary minus inside the exponent is allowed. -/
theorem c6_precedence :
    CalcCli.safe_eval "2+3*4" [] = .ok (.int 14) ∧
    CalcCli.safe_eval "(2+3)*4" [] = .ok (.int 20) ∧
    CalcCli.safe_eval "-2**2" [] = .ok (.int (-4)) ∧
    CalcCli.safe_eval "2**-2" [] = .ok (.real (Rat.divInt 1 4)) :=
  ⟨rfl, rfl, rfl, rfl⟩

/-- Claim C7: true division always produces a Real-tagged value: 4/2
evaluates to the float 2.0 (not the int 2), and for every pair of
real-kind operands with nonzero divisor pyDiv returns a Real. -/
theorem c7_div_always_real :
    CalcCli.safe_eval "4/2" [] = .ok (.real 2) ∧
    CalcCli.safe_eval "4/2" [] ≠ .ok (.int 2) ∧
    (∀ v w : Value, numericRI v = true → numericRI w = true → ratOf w ≠ 0 →
      ∃ q : ℚ, pyDiv v w = .ok (.real q)) := by
  refine ⟨rfl, by decide, ?_⟩
  intro v w hv hw hz
  obtain ⟨x, hx⟩ : ∃ x, toR v = some x := by
    cases v with
    | int n => exact ⟨_, rfl⟩
    | bool b => exact ⟨_, rfl⟩
    | real q => exact ⟨_, rfl⟩
    | complex r i => simp [numericRI] at hv
    | none => simp [numericRI] at hv
  obtain ⟨y, hy⟩ : ∃ y, toR w = some y := by
    cases w with
    | int n => exact ⟨_, rfl⟩
    | bool b => exact ⟨_, rfl⟩
    | real q => exact ⟨_, rfl⟩
    | complex r i => simp [numericRI] at hw
    | none => simp [numericRI] at hw
  have hzy : y ≠ 0 := by
    rw [ratOf, hy] at hz
    exact hz
  have hnum : (y.num == 0) = false := by
    rw [beq_eq_false_iff_ne]
    exact fun h => hzy (Rat.num_eq_zero.mp h)
  refine ⟨qdiv x y, ?_⟩
  simp [pyDiv, hx, hy, hnum]

/-- Witness for the hypotheses of `c7_div_always_real`. -/
theorem c7_div_always_real_witness :
    ∃ q : ℚ, pyDiv (.int 4) (.int 2) = .ok (.real q) :=
  c7_div_always_real.2.2 (.int 4) (.int 2) rfl rfl (by decide)

/-- Claim C8: identifier resolution tries the caller bindings first and the
built-in constants second (so a binding shadows pi), and an identifier in
neither fails with the UnknownName error: ans+1 with ans bound to 4.0
evaluates to 5.0 and fails with the name error on an empty binding map. -/
theorem c8_name_resolution :
    CalcCli.safe_eval "ans+1" [("ans", .real 4)] = .ok (.real 5) ∧
    CalcCli.safe_eval "ans+1" [] = .error (.nameNotAllowed "ans") ∧
    (∀ (env : List (String × Value)) (id : String) (v : Value) (f : ℕ),
      assocFind env id = some v →
      CalcCli.visit (f + 1) env (.name id) = .ok v) ∧
    (∀ (env : List (String × Value)) (id : String) (f : ℕ),
      assocFind env id = Option.none → assocFind ALLOWED_NAMES id = Option.none →
      CalcCli.visit (f + 1) env (.name id) = .error (.nameNotAllowed id)) := by
  refine ⟨rfl, rfl, ?_, ?_⟩
  · intro env id v f h
    simp [CalcCli.visit, h]
  · intro env id f h1 h2
    simp [CalcCli.visit, h1, h2]

/-- Witness for the hypotheses of `c8_name_resolution`: a caller binding
for pi shadows the built-in constant pi, and an unbound name errors. -/
theorem c8_name_resolution_witness :
    CalcCli.visit 1 [("pi", .int 3)] (.name "pi") = .ok (.int 3) ∧
    CalcCli.visit 1 [] (.name "ans") = .error (.nameNotAllowed "ans") :=
  ⟨c8_name_resolution.2.2.1 [("pi", .int 3)] "pi" (.int 3) 0 rfl,
   c8_name_resolution.2.2.2 [] "ans" 0 rfl rfl⟩

set_option maxRecDepth 100000 in
/-- Claim C9 (counterexample): the GUI formatter does NOT render every
mathematically integral value as a plain integer string: for the int
10^400 (producible by the evaluator, e.g. from the input 10**400) the
float(x) call inside fmt_num raises OverflowError, which the fallback
line re-raises uncaught, so formatting fails instead of producing any
string. -/
theorem c9_gui_int_overflow :
    CalcGui.safe_eval "10**400" [] = .ok (.int (10 ^ 400)) ∧
    isMathInt (.int (10 ^ 400)) = true ∧
    CalcGui.fmt_num (.int (10 ^ 400)) = .error EvalError.overflowError ∧
    isOkResult (CalcGui.fmt_num (.int (10 ^ 400))) = false :=
  ⟨rfl, rfl, rfl, rfl⟩

/-- Claim C9 (amended): calc.py formats every mathematically integral
value (int, bool, or float with zero fractional part) as a plain integer
string with no decimal point and no exponent; calc_gui.py does the same
except for ints beyond double range, where its float(x) integer test
raises an uncaught OverflowError.  Every other value is rendered by both
formatters through a mantissa strictly below 10^12, i.e. with at most 12
significant decimal digits. -/
theorem c9_formatter_contract :
    ∀ v : Value, numericRI v = true →
      (isMathInt v = true →
        CalcCli.format_num v = .ok (intStr (mathIntOf v)) ∧
        noDotExp (intStr (mathIntOf v)) = true ∧
        (guiIntOverflow v = false →
          CalcGui.fmt_num v = .ok (intStr (mathIntOf v))) ∧
        (guiIntOverflow v = true →
          CalcGui.fmt_num v = .error .overflowError)) ∧
      (isMathInt v = false →
        ∃ n e, n < 10 ^ 12 ∧
          CalcCli.format_num v = .ok (renderG (vNeg v) n e) ∧
          CalcGui.fmt_num v = .ok (renderG (vNeg v) n e)) := by
  intro v hv
  cases v with
  | int n =>
    refine ⟨fun _ => ⟨rfl, noDotExp_intStr n, ?_, ?_⟩, fun hfalse => ?_⟩
    · intro h
      have h2 : fltOverflows n = false := h
      simp [CalcGui.fmt_num, h2, mathIntOf]
    · intro h
      have h2 : fltOverflows n = true := h
      simp [CalcGui.fmt_num, h2]
    · simp [isMathInt] at hfalse
  | bool b =>
    refine ⟨fun _ => ⟨rfl, noDotExp_intStr _, fun _ => rfl, fun h => ?_⟩, fun hfalse => ?_⟩
    · exact Bool.noConfusion h
    · simp [isMathInt] at hfalse
  | real q =>
    constructor
    · intro hint
      have hden : q.den = 1 := by simpa [isMathInt] using hint
      refine ⟨?_, noDotExp_intStr q.num, ?_, ?_⟩
      · simp [CalcCli.format_num, mathIntOf, hden]
      · intro _
        simp [CalcGui.fmt_num, mathIntOf, hden]
      · intro h
        exact Bool.noConfusion h
    · intro hnotint
      have hden : q.den ≠ 1 := by simpa [isMathInt] using hnotint
      have hq0 : q.num ≠ 0 := by
        intro h0
        apply hden
        have hq : q = 0 := Rat.num_eq_zero.mp h0
        rw [hq]
        rfl
      have hpos : 0 < (if q.num < 0 then qneg q else q) := by
        by_cases hneg : q.num < 0
        · rw [if_pos hneg, qneg_eq]
          have hqneg : q < 0 := by
            by_contra hge
            push_neg at hge
            have := Rat.num_nonneg.mpr hge
            omega
          linarith
        · rw [if_neg hneg]
          have hpos2 : 0 < q.num := by omega
          exact Rat.num_pos.mp hpos2
      refine ⟨(sig12core (if q.num < 0 then qneg q else q)).1,
              (sig12core (if q.num < 0 then qneg q else q)).2,
              sig12core_lt _ hpos, ?_, ?_⟩
      · show CalcCli.format_num (.real q) = _
        simp only [CalcCli.format_num]
        rw [if_neg (by simpa using hden)]
        rw [fmt12g, if_neg hq0]
        rfl
      · show CalcGui.fmt_num (.real q) = _
        simp only [CalcGui.fmt_num]
        rw [if_neg (by simpa using hden)]
        rw [fmt12g, if_neg hq0]
        rfl
  | complex r i => simp [numericRI] at hv
  | none => simp [numericRI] at hv

set_option maxRecDepth 100000 in
/-- Witness for the hypotheses of `c9_formatter_contract`: the integral
value 42 (taking the in-range branch for the GUI formatter), the int
10^400 (taking its overflow branch), and the non-integral value one
third. -/
theorem c9_formatter_contract_witness :
    (CalcCli.format_num (.int 42) = .ok (intStr (mathIntOf (.int 42))) ∧
     noDotExp (intStr (mathIntOf (.int 42))) = true ∧
     (guiIntOverflow (.int 42) = false →
       CalcGui.fmt_num (.int 42) = .ok (intStr (mathIntOf (.int 42)))) ∧
     (guiIntOverflow (.int 42) = true →
       CalcGui.fmt_num (.int 42) = .error .overflowError)) ∧
    CalcGui.fmt_num (.int 42) = .ok (intStr (mathIntOf (.int 42))) ∧
    CalcGui.fmt_num (.int (10 ^ 400)) = .error .overflowError ∧
    (∃ n e, n < 10 ^ 12 ∧
      CalcCli.format_num (.real (Rat.divInt 1 3))
        = .ok (renderG (vNeg (.real (Rat.divInt 1 3))) n e) ∧
      CalcGui.fmt_num (.real (Rat.divInt 1 3))
        = .ok (renderG (vNeg (.real (Rat.divInt 1 3))) n e)) :=
  ⟨(c9_formatter_contract (.int 42) rfl).1 rfl,
   ((c9_formatter_contract (.int 42) rfl).1 rfl).2.2.1 rfl,
   ((c9_formatter_contract (.int (10 ^ 400)) rfl).1 rfl).2.2.2 rfl,
   (c9_formatter_contract (.real (Rat.divInt 1 3)) rfl).2 rfl⟩

/-- Claim C10: the boolean literals are admitted as numeric values by the
isinstance check (bool is a subclass of int): True evaluates to the Python
value True, whose numeric value is 1 and which formats as the plain string
for 1, and True+True evaluates to the int 2, in both files. -/
theorem c10_bool_literals_admitted :
    CalcCli.safe_eval "True" [] = .ok (.bool true) ∧
    ratOf (.bool true) = 1 ∧
    CalcCli.format_num (.bool true) = .ok (intStr 1) ∧
    CalcCli.safe_eval "True+True" [] = .ok (.int 2) ∧
    CalcGui.safe_eval "True" [] = .ok (.bool true) ∧
    CalcGui.safe_eval "True+True" [] = .ok (.int 2) :=
  ⟨rfl, rfl, rfl, rfl, rfl, rfl⟩
